import Mathlib

/-!
Verification of the Sia renter metadata subsystem: shallow embedding of the
bubble coordinator (modules/renter/metadata.go), the directory metadata
aggregation, the SiaDir metadata store (siadir package) and the SiaFile
snapshot engine (siafile package), together with proofs settling the
specification claims about them.

Floating point values (healths, redundancies) are modelled as rationals:
the only operations the code performs on them are comparisons, min and max,
which are exact on every representable value, so no rounding behaviour is
lost. Go time.Time values are modelled as integers, with 0 as the zero time
(IsZero, Before, After become = 0, < and >). Go uint64 counters are
modelled as Nat.
-/

/- ### Bubble coordinator (modules/renter/metadata.go) -/

/-- The status of a bubble being executed on a directory: bubbleError,
bubbleActive and bubblePending from metadata.go. -/
inductive BubbleStatus where
  | error
  | active
  | pending
deriving DecidableEq, Repr

/-- managedPrepareBubble, restricted to a single path: the coordinator map
entry for that path is an Option BubbleStatus. Returns the new entry and
whether the caller should proceed with the bubble. An absent entry becomes
active with proceed = true; any present entry becomes pending with
proceed = false (the code raises build.Critical on a present error status
but still sets pending and returns false). -/
def managedPrepareBubble : Option BubbleStatus → Option BubbleStatus × Bool
  | none => (some BubbleStatus.active, true)
  | some _ => (some BubbleStatus.pending, false)

/-- managedCompleteBubbleUpdate, restricted to a single path. Returns the
new entry together with the number of follow-up walks launched. An active
entry is removed; a pending entry is set back to active and exactly one
follow-up walk is launched; any other status is invalid (build.Critical)
and the entry is deleted to reset the corrupted state. -/
def managedCompleteBubbleUpdate : Option BubbleStatus → Option BubbleStatus × Nat
  | some BubbleStatus.active => (none, 0)
  | some BubbleStatus.pending => (some BubbleStatus.active, 1)
  | some BubbleStatus.error => (none, 0)
  | none => (none, 0)

/-- An externally observable event on the coordinator for one path: a caller
invoking prepare, or an in-flight walk invoking complete. -/
inductive BubbleEvent where
  | prep
  | comp
deriving DecidableEq, Repr

/-- The coordinator state for one path together with bookkeeping: the map
entry, the number of in-flight walks (callers that received proceed plus
follow-up walks launched by complete), and the number of proceed returns
seen so far. -/
structure CoordState where
  entry : Option BubbleStatus
  inflight : Nat
  proceeds : Nat
deriving DecidableEq, Repr

/-- The initial coordinator state: entry absent, nothing in flight. -/
def coordInit : CoordState := { entry := none, inflight := 0, proceeds := 0 }

/-- One event applied to the coordinator state. A prepare that returns
proceed puts one walk in flight; a complete takes the completing walk out
of flight and puts any follow-up walk it launched in flight. -/
def coordStep (s : CoordState) (e : BubbleEvent) : CoordState :=
  match e with
  | BubbleEvent.prep =>
    let r := managedPrepareBubble s.entry
    { entry := r.1,
      inflight := s.inflight + (if r.2 then 1 else 0),
      proceeds := s.proceeds + (if r.2 then 1 else 0) }
  | BubbleEvent.comp =>
    let r := managedCompleteBubbleUpdate s.entry
    { entry := r.1,
      inflight := s.inflight - 1 + r.2,
      proceeds := s.proceeds }

/-- Run a sequence of events from a given state. -/
def coordRunFrom (s : CoordState) (es : List BubbleEvent) : CoordState :=
  es.foldl coordStep s

/-- Run a sequence of events from the initial state. -/
def coordRun (es : List BubbleEvent) : CoordState :=
  coordRunFrom coordInit es

/-- A sequence of events is valid from a state when every complete event is
issued by an in-flight walk: complete only fires while inflight is
positive. -/
def validFrom : CoordState → List BubbleEvent → Bool
  | _, [] => true
  | s, e :: es =>
    (match e with
     | BubbleEvent.prep => true
     | BubbleEvent.comp => decide (0 < s.inflight)) && validFrom (coordStep s e) es

/-- The coordinator invariant: the entry is absent exactly when no walk is
in flight, and whenever the entry is present (active or pending) exactly
one walk is in flight. The error status is unreachable. -/
def coordInv (s : CoordState) : Prop :=
  (s.entry = none ∧ s.inflight = 0) ∨
  (s.entry = some BubbleStatus.active ∧ s.inflight = 1) ∨
  (s.entry = some BubbleStatus.pending ∧ s.inflight = 1)

theorem coordInv_init : coordInv coordInit := Or.inl ⟨rfl, rfl⟩

theorem coordInv_step (s : CoordState) (e : BubbleEvent)
    (hinv : coordInv s) (hok : e = BubbleEvent.comp → 0 < s.inflight) :
    coordInv (coordStep s e) := by
  rcases hinv with ⟨he, hn⟩ | ⟨he, hn⟩ | ⟨he, hn⟩ <;>
    cases e <;>
      simp_all [coordStep, managedPrepareBubble, managedCompleteBubbleUpdate, coordInv]

theorem coordInv_run (es : List BubbleEvent) :
    ∀ s : CoordState, coordInv s → validFrom s es = true → coordInv (coordRunFrom s es) := by
  induction es with
  | nil => intro s h _; exact h
  | cons e es ih =>
    intro s hinv hv
    simp only [validFrom, Bool.and_eq_true] at hv
    refine ih (coordStep s e) (coordInv_step s e hinv ?_) hv.2
    intro he
    subst he
    simpa using hv.1

theorem coord_proceeds_mono (es : List BubbleEvent) :
    ∀ s : CoordState, s.proceeds ≤ (coordRunFrom s es).proceeds := by
  induction es with
  | nil => intro s; exact le_refl _
  | cons e es ih =>
    intro s
    refine le_trans ?_ (ih (coordStep s e))
    cases e <;> simp [coordStep]

/-- Claim C1: the per-path bubble coordinator coalesces concurrent
requests. For every valid event sequence on a single path starting from
the absent state: prepare returns proceed exactly on an absent entry
(setting it active) and defer otherwise (setting it pending); complete on
an active entry removes it; complete on a pending entry sets it back to
active and launches exactly one follow-up walk, however many defers
occurred; the number of proceed returns is at least 1; and whenever the
system is quiescent (no walk in flight) the entry is absent. -/
theorem bubble_coalescing (es : List BubbleEvent)
    (hv : validFrom coordInit es = true) (hne : es ≠ []) :
    (∀ s : Option BubbleStatus, (managedPrepareBubble s).2 = true ↔ s = none) ∧
    (managedPrepareBubble none).1 = some BubbleStatus.active ∧
    (∀ st : BubbleStatus, (managedPrepareBubble (some st)).1 = some BubbleStatus.pending) ∧
    managedCompleteBubbleUpdate (some BubbleStatus.active) = (none, 0) ∧
    managedCompleteBubbleUpdate (some BubbleStatus.pending) = (some BubbleStatus.active, 1) ∧
    1 ≤ (coordRun es).proceeds ∧
    ((coordRun es).inflight = 0 → (coordRun es).entry = none) := by
  refine ⟨?_, rfl, ?_, rfl, rfl, ?_, ?_⟩
  · intro s; cases s <;> simp [managedPrepareBubble]
  · intro st; rfl
  · -- at least one proceed: the first valid event from the initial state
    -- must be a prepare, and on an absent entry it proceeds.
    match es, hne with
    | e :: es, _ =>
      cases e with
      | prep =>
        have h1 : (coordStep coordInit BubbleEvent.prep).proceeds = 1 := rfl
        have := coord_proceeds_mono es (coordStep coordInit BubbleEvent.prep)
        simpa [coordRun, coordRunFrom, h1] using this
      | comp =>
        simp [validFrom, coordInit] at hv
  · intro h0
    have hinv := coordInv_run es coordInit coordInv_init hv
    rcases hinv with ⟨he, _⟩ | ⟨_, hn⟩ | ⟨_, hn⟩
    · exact he
    · rw [coordRun] at h0; omega
    · rw [coordRun] at h0; omega

/-- Witness for bubble_coalescing: the concrete trace prepare, complete is
valid and nonempty, and the theorem applies to it. -/
theorem bubble_coalescing_witness :
    validFrom coordInit [BubbleEvent.prep, BubbleEvent.comp] = true ∧
    (coordRun [BubbleEvent.prep, BubbleEvent.comp]).entry = none :=
  ⟨by decide,
   (bubble_coalescing [BubbleEvent.prep, BubbleEvent.comp] (by decide)
      (by decide)).2.2.2.2.2.2 (by decide)⟩

/- ### Directory metadata (siadir package) and aggregation -/

/-- siadir.Metadata: the per-directory metadata blob. Healths and
redundancies are rationals (exact model of the float64 operations used:
comparison, min, max); times are integers with 0 as the zero time; uint64
counters are Nat; os.FileMode is Nat; the version tag is a string. -/
structure Metadata where
  aggregateHealth : ℚ
  aggregateLastHealthCheckTime : Int
  aggregateMinRedundancy : ℚ
  aggregateModTime : Int
  aggregateNumFiles : Nat
  aggregateNumStuckChunks : Nat
  aggregateNumSubDirs : Nat
  aggregateRemoteHealth : ℚ
  aggregateSize : Nat
  aggregateStuckHealth : ℚ
  health : ℚ
  lastHealthCheckTime : Int
  minRedundancy : ℚ
  modTime : Int
  mode : Nat
  numFiles : Nat
  numStuckChunks : Nat
  numSubDirs : Nat
  remoteHealth : ℚ
  size : Nat
  stuckHealth : ℚ
  version : String
deriving DecidableEq, Repr

/-- siafile.BubbledMetadata: the health information of one file that a
bubble collects (managedCalculateFileMetadata). The UID is only used for
the alert side channel and is not modelled. -/
structure BubbledMetadata where
  health : ℚ
  lastHealthCheckTime : Int
  modTime : Int
  numStuckChunks : Nat
  onDisk : Bool
  redundancy : ℚ
  size : Nat
  stuckHealth : ℚ
deriving DecidableEq, Repr

/-- siadir.DefaultDirHealth. -/
def DefaultDirHealth : ℚ := 0

/-- siadir.DefaultDirRedundancy. -/
def DefaultDirRedundancy : ℚ := -1

/-- math.MaxFloat64 exactly: (2^53 - 1) * 2^971. -/
def maxFloat64 : ℚ := (2 ^ 53 - 1) * 2 ^ 971

/-- The default metadata values a bubble starts from
(managedCalculateDirectoryMetadata lines 72-95): healths 0, times now,
min redundancies the MaxFloat64 sentinel, mod times zero, counters 0. -/
def calcInitMetadata (now : Int) : Metadata :=
  { aggregateHealth := DefaultDirHealth
    aggregateLastHealthCheckTime := now
    aggregateMinRedundancy := maxFloat64
    aggregateModTime := 0
    aggregateNumFiles := 0
    aggregateNumStuckChunks := 0
    aggregateNumSubDirs := 0
    aggregateRemoteHealth := DefaultDirHealth
    aggregateSize := 0
    aggregateStuckHealth := DefaultDirHealth
    health := DefaultDirHealth
    lastHealthCheckTime := now
    minRedundancy := maxFloat64
    modTime := 0
    mode := 0
    numFiles := 0
    numStuckChunks := 0
    numSubDirs := 0
    remoteHealth := DefaultDirHealth
    size := 0
    stuckHealth := DefaultDirHealth
    version := "" }

/-- The tail of the aggregation loop body (lines 260-275): fold the
recorded per-child values into the aggregate fields: max for the healths,
min for the redundancy unless the recorded value is exactly -1, earliest
for the last health check time, latest for the mod time. -/
def foldAggregates (m : Metadata) (aH aRH aSH aMR : ℚ) (aLH aMT : Int) : Metadata :=
  let m1 := { m with
    aggregateHealth := max m.aggregateHealth aH
    aggregateRemoteHealth := max m.aggregateRemoteHealth aRH
    aggregateStuckHealth := max m.aggregateStuckHealth aSH }
  let m2 := if aMR ≠ -1
    then { m1 with aggregateMinRedundancy := min m1.aggregateMinRedundancy aMR }
    else m1
  let m3 := if aLH < m2.aggregateLastHealthCheckTime
    then { m2 with aggregateLastHealthCheckTime := aLH }
    else m2
  if m3.aggregateModTime < aMT
    then { m3 with aggregateModTime := aMT }
    else m3

/-- The file branch of the aggregation loop (lines 154-216 followed by
260-275). The alert registration side effect is not modelled. A zero
LastHealthCheckTime on the file is first replaced by now. -/
def calcProcessFile (now : Int) (m : Metadata) (fm0 : BubbledMetadata) : Metadata :=
  let fm := if fm0.lastHealthCheckTime = 0
    then { fm0 with lastHealthCheckTime := now }
    else fm0
  let aggregateHealth := fm.health
  let aggregateStuckHealth := fm.stuckHealth
  let aggregateMinRedundancy := fm.redundancy
  let aggregateLastHealthCheckTime := fm.lastHealthCheckTime
  let aggregateModTime := fm.modTime
  let aggregateRemoteHealth : ℚ := if fm.onDisk then 0 else fm.health
  let m1 := { m with
    aggregateNumFiles := m.aggregateNumFiles + 1
    aggregateNumStuckChunks := m.aggregateNumStuckChunks + fm.numStuckChunks
    aggregateSize := m.aggregateSize + fm.size
    health := max m.health fm.health
    lastHealthCheckTime := if fm.lastHealthCheckTime < m.lastHealthCheckTime
      then fm.lastHealthCheckTime else m.lastHealthCheckTime
    minRedundancy := if fm.redundancy ≠ -1
      then min m.minRedundancy fm.redundancy else m.minRedundancy
    modTime := if m.modTime < fm.modTime then fm.modTime else m.modTime
    numFiles := m.numFiles + 1
    numStuckChunks := m.numStuckChunks + fm.numStuckChunks
    remoteHealth := if fm.onDisk then m.remoteHealth else max m.remoteHealth fm.health
    size := m.size + fm.size
    stuckHealth := max m.stuckHealth fm.stuckHealth }
  foldAggregates m1 aggregateHealth aggregateRemoteHealth aggregateStuckHealth
    aggregateMinRedundancy aggregateLastHealthCheckTime aggregateModTime

/-- The subdirectory branch of the aggregation loop (lines 218-258 followed
by 260-275). A zero AggregateLastHealthCheckTime on the child is first
replaced by now (the async bubble launched on that child in that case is a
side effect not modelled here). Each subdirectory adds its own aggregate
counters plus 1 to AggregateNumSubDirs to account for itself. -/
def calcProcessDir (now : Int) (m : Metadata) (dm0 : Metadata) : Metadata :=
  let dm := if dm0.aggregateLastHealthCheckTime = 0
    then { dm0 with aggregateLastHealthCheckTime := now }
    else dm0
  let m1 := { m with
    aggregateNumFiles := m.aggregateNumFiles + dm.aggregateNumFiles
    aggregateNumStuckChunks := m.aggregateNumStuckChunks + dm.aggregateNumStuckChunks
    aggregateNumSubDirs := m.aggregateNumSubDirs + dm.aggregateNumSubDirs + 1
    aggregateSize := m.aggregateSize + dm.aggregateSize
    numSubDirs := m.numSubDirs + 1 }
  foldAggregates m1 dm.aggregateHealth dm.aggregateRemoteHealth dm.aggregateStuckHealth
    dm.aggregateMinRedundancy dm.aggregateLastHealthCheckTime dm.aggregateModTime

/-- The sanity checks at the end of managedCalculateDirectoryMetadata
(lines 278-294): mod times still zero (no children) become now, and min
redundancies still equal to the MaxFloat64 sentinel become -1 to indicate
an empty directory. -/
def calcSanity (now : Int) (m0 : Metadata) : Metadata :=
  let m1 := if m0.aggregateModTime = 0 then { m0 with aggregateModTime := now } else m0
  let m2 := if m1.modTime = 0 then { m1 with modTime := now } else m1
  let m3 := if m2.aggregateMinRedundancy = maxFloat64
    then { m2 with aggregateMinRedundancy := -1 } else m2
  if m3.minRedundancy = maxFloat64 then { m3 with minRedundancy := -1 } else m3

/-- managedCalculateDirectoryMetadata: aggregate the collected file
metadatas and subdirectory metadatas into a new metadata value for the
directory. The Go loop drains the file list first and then the directory
list, so it is the two folds in that order, followed by the sanity
rewrites. -/
def managedCalculateDirectoryMetadata (now : Int)
    (files : List BubbledMetadata) (dirs : List Metadata) : Metadata :=
  calcSanity now
    (dirs.foldl (calcProcessDir now) (files.foldl (calcProcessFile now) (calcInitMetadata now)))

/- ### Field lemmas for the aggregation loop -/

theorem foldAggregates_aggregateNumSubDirs (m : Metadata) (aH aRH aSH aMR : ℚ)
    (aLH aMT : Int) :
    (foldAggregates m aH aRH aSH aMR aLH aMT).aggregateNumSubDirs = m.aggregateNumSubDirs := by
  simp only [foldAggregates]
  split_ifs <;> rfl

theorem foldAggregates_aggregateMinRedundancy (m : Metadata) (aH aRH aSH aMR : ℚ)
    (aLH aMT : Int) :
    (foldAggregates m aH aRH aSH aMR aLH aMT).aggregateMinRedundancy =
      if aMR ≠ -1 then min m.aggregateMinRedundancy aMR else m.aggregateMinRedundancy := by
  simp only [foldAggregates]
  split_ifs <;> rfl

theorem calcSanity_aggregateNumSubDirs (now : Int) (m : Metadata) :
    (calcSanity now m).aggregateNumSubDirs = m.aggregateNumSubDirs := by
  simp only [calcSanity]
  split_ifs <;> rfl

theorem calcSanity_aggregateMinRedundancy (now : Int) (m : Metadata) :
    (calcSanity now m).aggregateMinRedundancy =
      if m.aggregateMinRedundancy = maxFloat64 then -1 else m.aggregateMinRedundancy := by
  simp only [calcSanity]
  split_ifs <;> simp_all

theorem calcProcessFile_aggregateNumSubDirs (now : Int) (m : Metadata)
    (fm : BubbledMetadata) :
    (calcProcessFile now m fm).aggregateNumSubDirs = m.aggregateNumSubDirs := by
  simp only [calcProcessFile, foldAggregates_aggregateNumSubDirs]

theorem calcProcessFile_aggregateMinRedundancy (now : Int) (m : Metadata)
    (fm : BubbledMetadata) :
    (calcProcessFile now m fm).aggregateMinRedundancy =
      if fm.redundancy ≠ -1 then min m.aggregateMinRedundancy fm.redundancy
      else m.aggregateMinRedundancy := by
  simp only [calcProcessFile, foldAggregates_aggregateMinRedundancy]
  split_ifs <;> simp_all

theorem calcProcessDir_aggregateNumSubDirs (now : Int) (m : Metadata) (dm : Metadata) :
    (calcProcessDir now m dm).aggregateNumSubDirs =
      m.aggregateNumSubDirs + dm.aggregateNumSubDirs + 1 := by
  simp only [calcProcessDir, foldAggregates_aggregateNumSubDirs]
  split_ifs <;> rfl

theorem calcProcessDir_aggregateMinRedundancy (now : Int) (m : Metadata) (dm : Metadata) :
    (calcProcessDir now m dm).aggregateMinRedundancy =
      if dm.aggregateMinRedundancy ≠ -1 then min m.aggregateMinRedundancy dm.aggregateMinRedundancy
      else m.aggregateMinRedundancy := by
  simp only [calcProcessDir, foldAggregates_aggregateMinRedundancy]
  split_ifs <;> simp_all

theorem filesFold_aggregateNumSubDirs (now : Int) (files : List BubbledMetadata) :
    ∀ m : Metadata,
      (files.foldl (calcProcessFile now) m).aggregateNumSubDirs = m.aggregateNumSubDirs := by
  induction files with
  | nil => intro m; rfl
  | cons fm files ih =>
    intro m
    simp only [List.foldl_cons]
    rw [ih, calcProcessFile_aggregateNumSubDirs]

theorem dirsFold_aggregateNumSubDirs (now : Int) (dirs : List Metadata) :
    ∀ m : Metadata,
      (dirs.foldl (calcProcessDir now) m).aggregateNumSubDirs =
        m.aggregateNumSubDirs + dirs.length + (dirs.map Metadata.aggregateNumSubDirs).sum := by
  induction dirs with
  | nil => intro m; simp
  | cons dm dirs ih =>
    intro m
    simp only [List.foldl_cons, List.length_cons, List.map_cons, List.sum_cons]
    rw [ih, calcProcessDir_aggregateNumSubDirs]
    omega

theorem filesFold_aggregateMinRedundancy (now : Int) (files : List BubbledMetadata) :
    ∀ m : Metadata,
      (files.foldl (calcProcessFile now) m).aggregateMinRedundancy =
        ((files.map BubbledMetadata.redundancy).filter (fun r => decide (r ≠ -1))).foldl
          min m.aggregateMinRedundancy := by
  induction files with
  | nil => intro m; rfl
  | cons fm files ih =>
    intro m
    simp only [List.foldl_cons, List.map_cons, List.filter_cons]
    rw [ih, calcProcessFile_aggregateMinRedundancy]
    by_cases h : fm.redundancy = -1 <;> simp [h]

theorem dirsFold_aggregateMinRedundancy (now : Int) (dirs : List Metadata) :
    ∀ m : Metadata,
      (dirs.foldl (calcProcessDir now) m).aggregateMinRedundancy =
        ((dirs.map Metadata.aggregateMinRedundancy).filter (fun r => decide (r ≠ -1))).foldl
          min m.aggregateMinRedundancy := by
  induction dirs with
  | nil => intro m; rfl
  | cons dm dirs ih =>
    intro m
    simp only [List.foldl_cons, List.map_cons, List.filter_cons]
    rw [ih, calcProcessDir_aggregateMinRedundancy]
    by_cases h : dm.aggregateMinRedundancy = -1 <;> simp [h]

/-- A concrete all-zero metadata value used for witnesses and
counterexamples. -/
def mdZero : Metadata :=
  { aggregateHealth := 0
    aggregateLastHealthCheckTime := 0
    aggregateMinRedundancy := 0
    aggregateModTime := 0
    aggregateNumFiles := 0
    aggregateNumStuckChunks := 0
    aggregateNumSubDirs := 0
    aggregateRemoteHealth := 0
    aggregateSize := 0
    aggregateStuckHealth := 0
    health := 0
    lastHealthCheckTime := 0
    minRedundancy := 0
    modTime := 0
    mode := 0
    numFiles := 0
    numStuckChunks := 0
    numSubDirs := 0
    remoteHealth := 0
    size := 0
    stuckHealth := 0
    version := "" }

/-- Claim C2 fails on the code: bubbling a directory with no children at
all (which succeeds) produces aggregateNumSubDirs = 0, while the claimed
formula 1 + sum over child directories gives 1. -/
theorem aggregate_num_sub_dirs_cex :
    (managedCalculateDirectoryMetadata 5 [] []).aggregateNumSubDirs ≠
      1 + (([] : List Metadata).map Metadata.aggregateNumSubDirs).sum := by
  simp [managedCalculateDirectoryMetadata, calcSanity_aggregateNumSubDirs, calcInitMetadata]

/-- Claim C2 (amended): for every directory bubble, the resulting
aggregateNumSubDirs equals the number of child directories plus the sum of
the children's aggregateNumSubDirs values; equivalently each child
directory contributes 1 (for itself) plus its own aggregate count. The
claimed formula 1 + sum is off by the number of children minus one. -/
theorem aggregate_num_sub_dirs (now : Int) (files : List BubbledMetadata)
    (dirs : List Metadata) :
    (managedCalculateDirectoryMetadata now files dirs).aggregateNumSubDirs =
      dirs.length + (dirs.map Metadata.aggregateNumSubDirs).sum := by
  rw [managedCalculateDirectoryMetadata, calcSanity_aggregateNumSubDirs,
    dirsFold_aggregateNumSubDirs, filesFold_aggregateNumSubDirs]
  simp [calcInitMetadata]

/- ### Claim C4: aggregate min redundancy -/

/-- The redundancy values the aggregation sees, one per child: the file
children's redundancies followed by the directory children's aggregate min
redundancies. -/
def childRedundancies (files : List BubbledMetadata) (dirs : List Metadata) : List ℚ :=
  files.map BubbledMetadata.redundancy ++ dirs.map Metadata.aggregateMinRedundancy

theorem foldl_min_le_init {α : Type} [LinearOrder α] (l : List α) :
    ∀ a : α, l.foldl min a ≤ a := by
  induction l with
  | nil => intro a; exact le_refl a
  | cons x l ih =>
    intro a
    exact le_trans (ih (min a x)) (min_le_left a x)

theorem foldl_min_le_mem {α : Type} [LinearOrder α] (l : List α) :
    ∀ a x : α, x ∈ l → l.foldl min a ≤ x := by
  induction l with
  | nil => intro a x hx; cases hx
  | cons y l ih =>
    intro a x hx
    rcases List.mem_cons.mp hx with h | h
    · subst h
      exact le_trans (foldl_min_le_init l (min a x)) (min_le_right a x)
    · exact ih (min a y) x h

theorem foldl_min_mem_or_init {α : Type} [LinearOrder α] (l : List α) :
    ∀ a : α, l.foldl min a = a ∨ l.foldl min a ∈ l := by
  induction l with
  | nil => intro a; exact Or.inl rfl
  | cons x l ih =>
    intro a
    rcases ih (min a x) with h | h
    · rcases min_cases a x with ⟨hm, _⟩ | ⟨hm, _⟩
      · exact Or.inl (by rw [List.foldl_cons, h, hm])
      · exact Or.inr (by rw [List.foldl_cons, h, hm]; exact List.mem_cons_self x l)
    · exact Or.inr (List.mem_cons_of_mem x h)

/-- Claim C4 fails on the code: a directory whose single subdirectory
child carries the (unusual but representable) aggregate min redundancy
-1/2 has no child with redundancy ≥ 0, so the claimed value is -1, but the
aggregation only skips the exact sentinel -1 and therefore produces
-1/2. -/
theorem aggregate_min_redundancy_cex :
    childRedundancies [] [{ mdZero with aggregateMinRedundancy := -(1/2) }] = [-(1/2)] ∧
    ¬ (0 : ℚ) ≤ -(1/2) ∧
    (managedCalculateDirectoryMetadata 0 []
        [{ mdZero with aggregateMinRedundancy := -(1/2) }]).aggregateMinRedundancy ≠ -1 := by
  refine ⟨rfl, by norm_num, ?_⟩
  · have hacc :
        (List.foldl (calcProcessDir 0)
            (List.foldl (calcProcessFile 0) (calcInitMetadata 0) [])
            [{ mdZero with aggregateMinRedundancy := -(1/2) }]).aggregateMinRedundancy =
          -(1/2) := by
      rw [List.foldl_nil, List.foldl_cons, List.foldl_nil,
        calcProcessDir_aggregateMinRedundancy]
      norm_num [calcInitMetadata, maxFloat64, min_def]
    rw [managedCalculateDirectoryMetadata, calcSanity_aggregateMinRedundancy, hacc]
    rw [if_neg (by norm_num [maxFloat64])]
    norm_num

/-- Claim C4 (amended): for every directory bubble, the resulting
aggregateMinRedundancy is the minimum of the child redundancies taken over
the children whose redundancy is not the exact sentinel -1 (rather than
over children with redundancy ≥ 0), and is -1 when every child carries the
sentinel (the accumulated MaxFloat64 start value is rewritten to -1 at the
end). The hypothesis that each child redundancy is below MaxFloat64 holds
for every value a real float computation can produce other than the
sentinel start value itself. -/
theorem aggregate_min_redundancy (now : Int) (files : List BubbledMetadata)
    (dirs : List Metadata)
    (hlt : ∀ r ∈ childRedundancies files dirs, r < maxFloat64) :
    (managedCalculateDirectoryMetadata now files dirs).aggregateMinRedundancy =
      if (childRedundancies files dirs).filter (fun r => decide (r ≠ -1)) = [] then -1
      else ((childRedundancies files dirs).filter (fun r => decide (r ≠ -1))).foldl
        min maxFloat64 := by
  have hfold :
      (dirs.foldl (calcProcessDir now)
          (files.foldl (calcProcessFile now) (calcInitMetadata now))).aggregateMinRedundancy =
        ((childRedundancies files dirs).filter (fun r => decide (r ≠ -1))).foldl
          min maxFloat64 := by
    rw [dirsFold_aggregateMinRedundancy, filesFold_aggregateMinRedundancy,
      childRedundancies, List.filter_append, List.foldl_append]
    rfl
  rw [managedCalculateDirectoryMetadata, calcSanity_aggregateMinRedundancy, hfold]
  set L := (childRedundancies files dirs).filter (fun r => decide (r ≠ -1)) with hL
  by_cases hempty : L = []
  · -- no child escapes the sentinel filter: the accumulator stays at
    -- MaxFloat64 and the sanity rewrite turns it into -1.
    simp [hempty]
  · -- some child has a redundancy other than -1: the accumulator is at
    -- most that value, hence strictly below MaxFloat64, so the sanity
    -- rewrite does not fire.
    have hne : (L.foldl min maxFloat64) ≠ maxFloat64 := by
      match L, hempty with
      | x :: L, _ =>
        have hxmem : x ∈ x :: L := List.mem_cons_self x L
        have hle := foldl_min_le_mem (x :: L) maxFloat64 x hxmem
        have hxchild : x ∈ childRedundancies files dirs :=
          List.mem_of_mem_filter (by rw [← hL]; exact hxmem)
        have := hlt x hxchild
        exact ne_of_lt (lt_of_le_of_lt hle this)
    simp [hempty, hne]

/-- Witness for aggregate_min_redundancy: a single subdirectory child with
aggregate min redundancy 3 (below the MaxFloat64 sentinel), whose value
survives as the minimum. -/
theorem aggregate_min_redundancy_witness :
    (managedCalculateDirectoryMetadata 0 []
        [{ mdZero with aggregateMinRedundancy := 3 }]).aggregateMinRedundancy =
      if (childRedundancies [] [{ mdZero with aggregateMinRedundancy := 3 }]).filter
          (fun r => decide (r ≠ -1)) = [] then -1
      else ((childRedundancies [] [{ mdZero with aggregateMinRedundancy := 3 }]).filter
          (fun r => decide (r ≠ -1))).foldl min maxFloat64 :=
  aggregate_min_redundancy 0 [] [{ mdZero with aggregateMinRedundancy := 3 }] (by
    intro r hr
    have hc : childRedundancies [] [{ mdZero with aggregateMinRedundancy := 3 }] = [3] := rfl
    rw [hc, List.mem_singleton] at hr
    subst hr
    norm_num [maxFloat64])

/- ### SiaDir metadata store (siadir package) -/

/-- The error surfaced by operations on a deleted SiaDir
(siadir.ErrDeleted). Disk and WAL failures are outside the model: the WAL
success path is assumed, which is the path every claim here is about. -/
inductive DirErr where
  | deleted
deriving DecidableEq, Repr

/-- SiaDir: the in-memory directory object of the siadir package, holding
its metadata, the tombstone flag and the path of its backing directory on
disk. The wal and deps handles carry no modelled state. -/
structure SiaDir where
  metadata : Metadata
  deleted : Bool
  path : String
deriving DecidableEq, Repr

/-- saveDir: refuse to save a deleted SiaDir, otherwise persist the whole
SiaDir via a metadata WAL update (the write itself is modelled as
succeeding). -/
def SiaDir.saveDir (sd : SiaDir) : Except DirErr SiaDir :=
  if sd.deleted then Except.error DirErr.deleted else Except.ok sd

/-- updateMetadata: refuse to update a deleted SiaDir, otherwise copy every
metadata field, including Mode and Version, from the argument into the
SiaDir and save it. The field-by-field copy mirrors the source. -/
def SiaDir.updateMetadata (sd : SiaDir) (metadata : Metadata) : Except DirErr SiaDir :=
  if sd.deleted then Except.error DirErr.deleted
  else SiaDir.saveDir { sd with metadata :=
    { aggregateHealth := metadata.aggregateHealth
      aggregateLastHealthCheckTime := metadata.aggregateLastHealthCheckTime
      aggregateMinRedundancy := metadata.aggregateMinRedundancy
      aggregateModTime := metadata.aggregateModTime
      aggregateNumFiles := metadata.aggregateNumFiles
      aggregateNumStuckChunks := metadata.aggregateNumStuckChunks
      aggregateNumSubDirs := metadata.aggregateNumSubDirs
      aggregateRemoteHealth := metadata.aggregateRemoteHealth
      aggregateSize := metadata.aggregateSize
      aggregateStuckHealth := metadata.aggregateStuckHealth
      health := metadata.health
      lastHealthCheckTime := metadata.lastHealthCheckTime
      minRedundancy := metadata.minRedundancy
      modTime := metadata.modTime
      mode := metadata.mode
      numFiles := metadata.numFiles
      numStuckChunks := metadata.numStuckChunks
      numSubDirs := metadata.numSubDirs
      remoteHealth := metadata.remoteHealth
      size := metadata.size
      stuckHealth := metadata.stuckHealth
      version := metadata.version } }

/-- UpdateBubbledMetadata: overwrite the Mode and Version of the incoming
metadata with the current values of the SiaDir (they are not bubbled) and
apply updateMetadata. -/
def SiaDir.UpdateBubbledMetadata (sd : SiaDir) (metadata : Metadata) : Except DirErr SiaDir :=
  SiaDir.updateMetadata sd
    { metadata with mode := sd.metadata.mode, version := sd.metadata.version }

/-- UpdateLastHealthCheckTime: set the two last-health-check times on the
current metadata and apply updateMetadata. -/
def SiaDir.UpdateLastHealthCheckTime (sd : SiaDir)
    (aggregateLastHealthCheckTime lastHealthCheckTime : Int) : Except DirErr SiaDir :=
  SiaDir.updateMetadata sd
    { sd.metadata with
      aggregateLastHealthCheckTime := aggregateLastHealthCheckTime
      lastHealthCheckTime := lastHealthCheckTime }

/-- Delete: a no-op returning nil on an already deleted SiaDir, otherwise
apply the delete WAL update and set the tombstone flag. -/
def SiaDir.Delete (sd : SiaDir) : Except DirErr SiaDir :=
  if sd.deleted then Except.ok sd else Except.ok { sd with deleted := true }

/-- Rename: refuse on a deleted SiaDir, otherwise rename the backing
directory and record the new path. -/
def SiaDir.Rename (sd : SiaDir) (targetPath : String) : Except DirErr SiaDir :=
  if sd.deleted then Except.error DirErr.deleted
  else Except.ok { sd with path := targetPath }

/-- SetPath: refuse on a deleted SiaDir, otherwise record the new path. -/
def SiaDir.SetPath (sd : SiaDir) (targetPath : String) : Except DirErr SiaDir :=
  if sd.deleted then Except.error DirErr.deleted
  else Except.ok { sd with path := targetPath }

/-- Modelled from the spec: modules.DefaultDirPerm, the default directory
permission mode applied by the version upgrade, is defined outside the
provided sources; the spec only calls it the default mode. The concrete
value does not matter to any claim. -/
def DefaultDirPerm : Nat := 448

/-- The compat step of callLoadSiaDirMetadata, applied to the metadata
value parsed from disk (the file I/O and JSON decoding around it are not
modelled): when the version field is missing AND the mode is unset, the
mode becomes the default permission and the version becomes 1.0, in memory
only. -/
def callLoadSiaDirMetadata (md : Metadata) : Metadata :=
  if md.version = "" ∧ md.mode = 0
  then { md with mode := DefaultDirPerm, version := "1.0" }
  else md

/-- A fresh, live SiaDir used as a concrete input by witnesses. -/
def sdFresh : SiaDir := { metadata := mdZero, deleted := false, path := "" }

/-- A tombstoned SiaDir used as a concrete input by witnesses. -/
def sdGone : SiaDir := { metadata := mdZero, deleted := true, path := "" }

/-- Claim C7: on a live SiaDir, UpdateBubbledMetadata installs exactly the
incoming metadata with its mode and version replaced by the values the
SiaDir already held, and leaves the tombstone flag and path alone. -/
theorem update_bubbled_metadata_frame (sd : SiaDir) (m : Metadata)
    (h : sd.deleted = false) :
    SiaDir.UpdateBubbledMetadata sd m =
      Except.ok { sd with metadata :=
        { m with mode := sd.metadata.mode, version := sd.metadata.version } } := by
  simp only [SiaDir.UpdateBubbledMetadata, SiaDir.updateMetadata, SiaDir.saveDir, h]
  rfl

/-- Witness for update_bubbled_metadata_frame at a concrete live SiaDir
and a concrete input metadata carrying its own mode and version. -/
theorem update_bubbled_metadata_frame_witness :
    SiaDir.UpdateBubbledMetadata sdFresh { mdZero with health := 3, mode := 7, version := "v2" } =
      Except.ok { sdFresh with metadata :=
        { { mdZero with health := 3, mode := 7, version := "v2" } with
          mode := sdFresh.metadata.mode, version := sdFresh.metadata.version } } :=
  update_bubbled_metadata_frame sdFresh
    { mdZero with health := 3, mode := 7, version := "v2" } rfl

/-- Claim C8 fails on the code: a metadata blob with a missing version but
a nonzero mode is not upgraded, because the compat check also requires the
mode to be unset. -/
theorem load_metadata_upgrade_cex :
    ({ mdZero with mode := 7 } : Metadata).version = "" ∧
    (callLoadSiaDirMetadata { mdZero with mode := 7 }).version ≠ "1.0" := by
  constructor
  · rfl
  · simp [callLoadSiaDirMetadata, mdZero]

/-- Claim C8 (amended): a metadata blob loaded from disk is upgraded in
memory, mode to the default permission and version to 1.0, exactly when
the version field is missing AND the mode field is zero; with a nonzero
mode the blob is returned unchanged. -/
theorem load_metadata_upgrade (md : Metadata) (hv : md.version = "") :
    (md.mode = 0 →
      callLoadSiaDirMetadata md = { md with mode := DefaultDirPerm, version := "1.0" }) ∧
    (md.mode ≠ 0 → callLoadSiaDirMetadata md = md) := by
  constructor <;> intro h <;> simp [callLoadSiaDirMetadata, hv, h]

/-- Witness for load_metadata_upgrade on the all-zero blob, which has a
missing version and zero mode and hence gets upgraded. -/
theorem load_metadata_upgrade_witness :
    callLoadSiaDirMetadata mdZero = { mdZero with mode := DefaultDirPerm, version := "1.0" } :=
  (load_metadata_upgrade mdZero rfl).1 rfl

/-- Claim C9 fails on the code: Delete on an already tombstoned SiaDir
does not fail with the Deleted error; it is a no-op that returns nil and
the unchanged SiaDir. -/
theorem deleted_operations_cex :
    SiaDir.Delete sdGone = Except.ok sdGone ∧
    SiaDir.Delete sdGone ≠ Except.error DirErr.deleted := by
  constructor
  · simp [SiaDir.Delete, sdGone]
  · simp [SiaDir.Delete, sdGone]

/-- Claim C9 (amended): on a tombstoned SiaDir, every metadata update
(updateMetadata, UpdateBubbledMetadata, UpdateLastHealthCheckTime),
Rename and SetPath fails with the Deleted error and leaves no changed
state behind; Delete alone is idempotent, returning nil and the SiaDir
unchanged rather than failing. -/
theorem deleted_operations (sd : SiaDir) (m : Metadata) (a b : Int) (t : String)
    (h : sd.deleted = true) :
    SiaDir.updateMetadata sd m = Except.error DirErr.deleted ∧
    SiaDir.UpdateBubbledMetadata sd m = Except.error DirErr.deleted ∧
    SiaDir.UpdateLastHealthCheckTime sd a b = Except.error DirErr.deleted ∧
    SiaDir.Rename sd t = Except.error DirErr.deleted ∧
    SiaDir.SetPath sd t = Except.error DirErr.deleted ∧
    SiaDir.Delete sd = Except.ok sd := by
  refine ⟨?_, ?_, ?_, ?_, ?_, ?_⟩ <;>
    simp [SiaDir.updateMetadata, SiaDir.UpdateBubbledMetadata,
      SiaDir.UpdateLastHealthCheckTime, SiaDir.Rename, SiaDir.SetPath, SiaDir.Delete, h]

/-- Witness for deleted_operations at a concrete tombstoned SiaDir. -/
theorem deleted_operations_witness :
    SiaDir.updateMetadata sdGone mdZero = Except.error DirErr.deleted ∧
    SiaDir.Rename sdGone "x" = Except.error DirErr.deleted :=
  ⟨(deleted_operations sdGone mdZero 0 0 "x" rfl).1,
   (deleted_operations sdGone mdZero 0 0 "x" rfl).2.2.2.1⟩

/- ### Claim C3: the deferred bubble path -/

/-- One entry of a directory listing as managedUpdateLastHealthCheckTime
sees it: a SiaFile child (carrying the metadata a bubble would read) or a
subdirectory child with its persisted metadata. -/
inductive DirEntry where
  | file (bm : BubbledMetadata)
  | dir (md : Metadata)
deriving DecidableEq, Repr

/-- The aggregate last-health-check times of the directory children of a
listing, in order. -/
def dirListingAggTimes (children : List DirEntry) : List Int :=
  children.filterMap (fun e =>
    match e with
    | DirEntry.dir md => some md.aggregateLastHealthCheckTime
    | DirEntry.file _ => none)

/-- The loop body of managedUpdateLastHealthCheckTime: a directory child
whose AggregateLastHealthCheckTime is before the accumulator lowers the
accumulator; everything that is not a directory is skipped. -/
def lhctStep (acc : Int) (e : DirEntry) : Int :=
  match e with
  | DirEntry.dir md =>
    if md.aggregateLastHealthCheckTime < acc then md.aggregateLastHealthCheckTime else acc
  | DirEntry.file _ => acc

/-- managedUpdateLastHealthCheckTime: fold the directory children of the
listing starting from the current time, then write the result as the
AggregateLastHealthCheckTime (and now as the LastHealthCheckTime) of the
directory through a metadata WAL update. Both clock reads of the original
are modelled by the single instant now. -/
def managedUpdateLastHealthCheckTime (now : Int) (children : List DirEntry)
    (sd : SiaDir) : Except DirErr SiaDir :=
  SiaDir.UpdateLastHealthCheckTime sd (children.foldl lhctStep now) now

/-- The outcome of managedBubbleMetadata: either the caller proceeded and
performed the walk, or it was deferred and only ran the cheap
last-health-check-time update, whose result is recorded. -/
inductive BubbleOutcome where
  | walked
  | deferredUpdate (r : Except DirErr SiaDir)
deriving Repr

/-- managedBubbleMetadata: prepare the bubble; on proceed run the walk
(managedPerformBubbleMetadata, modelled separately), on defer still run
managedUpdateLastHealthCheckTime and return. -/
def managedBubbleMetadata (entry : Option BubbleStatus) (now : Int)
    (children : List DirEntry) (sd : SiaDir) : Option BubbleStatus × BubbleOutcome :=
  let r := managedPrepareBubble entry
  if r.2 then (r.1, BubbleOutcome.walked)
  else (r.1, BubbleOutcome.deferredUpdate (managedUpdateLastHealthCheckTime now children sd))

theorem foldl_lhctStep_eq_min (children : List DirEntry) :
    ∀ acc : Int, children.foldl lhctStep acc = (dirListingAggTimes children).foldl min acc := by
  induction children with
  | nil => intro acc; rfl
  | cons e children ih =>
    intro acc
    cases e with
    | file bm => simp [lhctStep, dirListingAggTimes, List.filterMap_cons, ih]
    | dir md =>
      have hstep : lhctStep acc (DirEntry.dir md) = min acc md.aggregateLastHealthCheckTime := by
        rw [lhctStep, min_def]
        split_ifs <;> omega
      simp only [List.foldl_cons, dirListingAggTimes, List.filterMap_cons] at ih ⊢
      rw [hstep, ih]

/-- Claim C3 fails on the code: a deferred bubble on a directory with a
single subdirectory child whose aggregate time is 1, at current time 0,
writes 0 (the fold starts at the current time, which clamps the result),
not the minimum 1 of the children's aggregate times. -/
theorem deferred_update_lhct_cex :
    dirListingAggTimes [DirEntry.dir { mdZero with aggregateLastHealthCheckTime := 1 }] = [1] ∧
    managedUpdateLastHealthCheckTime 0
        [DirEntry.dir { mdZero with aggregateLastHealthCheckTime := 1 }] sdFresh =
      Except.ok sdFresh := by
  constructor
  · rfl
  · simp only [managedUpdateLastHealthCheckTime, SiaDir.UpdateLastHealthCheckTime,
      SiaDir.updateMetadata, SiaDir.saveDir, sdFresh]
    norm_num [List.foldl_cons, List.foldl_nil, lhctStep, mdZero]

/-- Claim C3 (amended): whenever a bubble request on a directory is
deferred (the coordinator entry is present, so prepare returns defer and
sets it pending), the caller still writes a last-health-check update
through the WAL before returning: the new AggregateLastHealthCheckTime is
the minimum of the current time and the aggregate last-health-check times
of the DIRECTORY children (file children are skipped, and the current
time participates in the minimum), and the new LastHealthCheckTime is the
current time. -/
theorem deferred_update_lhct (st : BubbleStatus) (now : Int)
    (children : List DirEntry) (sd : SiaDir) (h : sd.deleted = false) :
    managedBubbleMetadata (some st) now children sd =
      (some BubbleStatus.pending,
        BubbleOutcome.deferredUpdate (Except.ok { sd with metadata :=
          { sd.metadata with
            aggregateLastHealthCheckTime := (dirListingAggTimes children).foldl min now
            lastHealthCheckTime := now } })) ∧
    (dirListingAggTimes children).foldl min now ≤ now ∧
    (∀ t ∈ dirListingAggTimes children, (dirListingAggTimes children).foldl min now ≤ t) ∧
    ((dirListingAggTimes children).foldl min now = now ∨
      (dirListingAggTimes children).foldl min now ∈ dirListingAggTimes children) := by
  refine ⟨?_, foldl_min_le_init _ now, fun t ht => foldl_min_le_mem _ now t ht,
    foldl_min_mem_or_init _ now⟩
  simp only [managedBubbleMetadata, managedPrepareBubble, Bool.false_eq_true, if_false,
    managedUpdateLastHealthCheckTime, SiaDir.UpdateLastHealthCheckTime,
    SiaDir.updateMetadata, SiaDir.saveDir, h, foldl_lhctStep_eq_min]

/-- The all-zero file bubbled metadata, used as a concrete input. -/
def bmZero : BubbledMetadata :=
  { health := 0
    lastHealthCheckTime := 0
    modTime := 0
    numStuckChunks := 0
    onDisk := true
    redundancy := 0
    size := 0
    stuckHealth := 0 }

/-- Witness for deferred_update_lhct: a deferred bubble (entry active) on
a live directory with one file child and one subdirectory child. -/
theorem deferred_update_lhct_witness :
    managedBubbleMetadata (some BubbleStatus.active) 5
        [DirEntry.file bmZero, DirEntry.dir { mdZero with aggregateLastHealthCheckTime := 2 }]
        sdFresh =
      (some BubbleStatus.pending,
        BubbleOutcome.deferredUpdate (Except.ok { sdFresh with metadata :=
          { sdFresh.metadata with
            aggregateLastHealthCheckTime :=
              (dirListingAggTimes [DirEntry.file bmZero,
                DirEntry.dir { mdZero with aggregateLastHealthCheckTime := 2 }]).foldl min 5
            lastHealthCheckTime := 5 } })) :=
  (deferred_update_lhct BubbleStatus.active 5
    [DirEntry.file bmZero, DirEntry.dir { mdZero with aggregateLastHealthCheckTime := 2 }]
    sdFresh rfl).1

/- ### Snapshot engine (siafile package): SnapshotRange -/

/-- One piece of a chunk as stored in the chunk table: a host table offset
and a Merkle root (the root modelled as a number). -/
structure Piece where
  hostTableOffset : Nat
  merkleRoot : Nat
deriving DecidableEq, Repr

/-- One chunk record: its index, the stuck flag, and up to n piece slots
each holding a list of pieces. -/
structure Chunk where
  index : Nat
  stuck : Bool
  pieces : List (List Piece)
deriving DecidableEq, Repr

/-- The index-only stub readlockChunks produces for a chunk outside the
requested range: only the index is set, no pieces. -/
def stub (i : Nat) : Chunk := { index := i, stuck := false, pieces := [] }

/-- The part of a SiaFile that SnapshotRange reads: the static piece size,
the erasure coder's MinPieces, and the chunk table (sf.chunk i is the
i-th entry; numChunks is its length). -/
structure SiaFile where
  staticPieceSize : Nat
  minPieces : Nat
  chunks : List Chunk
deriving DecidableEq, Repr

/-- staticChunkSize: piece size times the number of data pieces. -/
def SiaFile.staticChunkSize (sf : SiaFile) : Nat :=
  sf.staticPieceSize * sf.minPieces

/-- readlockChunks: walk every chunk index of the file in order; indices
below mn or above mx become index-only stubs, the others are read from the
chunk table. -/
def readlockChunks (sf : SiaFile) (mn mx : Nat) : List Chunk :=
  (List.range sf.chunks.length).map (fun i =>
    if i < mn ∨ mx < i then stub i else sf.chunks.getD i (stub i))

/-- SnapshotRange: compute the chunk range covering the byte range
[offset, offset+length): minChunk is offset / chunkSize, maxChunk is
(offset+length) / chunkSize, decremented when it is positive and
offset+length falls exactly on a chunk boundary; then copy the chunks via
readlockChunks. -/
def SnapshotRange (sf : SiaFile) (offset length : Nat) : List Chunk :=
  let minChunk := offset / sf.staticChunkSize
  let maxChunk := (offset + length) / sf.staticChunkSize
  let maxChunkOffset := (offset + length) % sf.staticChunkSize
  let maxChunk := if 0 < maxChunk ∧ maxChunkOffset = 0 then maxChunk - 1 else maxChunk
  readlockChunks sf minChunk maxChunk

theorem readlockChunks_getElem (sf : SiaFile) (mn mx i : Nat)
    (hi : i < sf.chunks.length) :
    (readlockChunks sf mn mx)[i]? =
      some (if i < mn ∨ mx < i then stub i else sf.chunks.getD i (stub i)) := by
  simp [readlockChunks, List.getElem?_map, List.getElem?_range, hi]

theorem minChunk_le_iff (cs o i : Nat) (hcs : 0 < cs) :
    o / cs ≤ i ↔ o < (i + 1) * cs := by
  constructor
  · intro h
    by_contra hno
    push_neg at hno
    have h2 : i + 1 ≤ o / cs := (Nat.le_div_iff_mul_le hcs).mpr hno
    omega
  · intro h
    by_contra hno
    push_neg at hno
    have h2 : (i + 1) * cs ≤ o := (Nat.le_div_iff_mul_le hcs).mp (by omega)
    linarith

theorem le_maxChunk_iff (cs n i : Nat) (hcs : 0 < cs) (hn : 0 < n) :
    (i ≤ if 0 < n / cs ∧ n % cs = 0 then n / cs - 1 else n / cs) ↔ i * cs < n := by
  have hdm : n / cs * cs + n % cs = n := by
    rw [Nat.mul_comm]
    exact Nat.div_add_mod n cs
  have hmod : n % cs < cs := Nat.mod_lt n hcs
  by_cases hc : 0 < n / cs ∧ n % cs = 0
  · rw [if_pos hc]
    constructor
    · intro h
      have hi1 : (i + 1) * cs ≤ n / cs * cs := Nat.mul_le_mul_right cs (by omega)
      have hexp : (i + 1) * cs = i * cs + cs := by ring
      linarith
    · intro h
      by_contra hno
      have hge : n / cs * cs ≤ i * cs := Nat.mul_le_mul_right cs (by omega)
      linarith
  · rw [if_neg hc]
    have hrpos : 0 < n % cs := by
      rcases Nat.eq_zero_or_pos (n % cs) with h0 | h0
      · exfalso
        rcases Nat.eq_zero_or_pos (n / cs) with hq0 | hq0
        · rw [hq0] at hdm
          omega
        · exact hc ⟨hq0, h0⟩
      · exact h0
    constructor
    · intro h
      have h1 : i * cs ≤ n / cs * cs := Nat.mul_le_mul_right cs h
      linarith
    · intro h
      by_contra hno
      have hge : (n / cs + 1) * cs ≤ i * cs := Nat.mul_le_mul_right cs (by omega)
      have hexp : (n / cs + 1) * cs = n / cs * cs + cs := by ring
      linarith

/-- Claim C5 fails on the code: with chunk size 1 and a single stored
chunk carrying a piece, snapshot_range at offset 0 with length 0
materializes chunk 0 (maxChunk is 0 and is not decremented because the
decrement requires maxChunk > 0), so the snapshot is not all stubs. -/
theorem snapshot_range_len_zero_cex :
    SnapshotRange
        { staticPieceSize := 1, minPieces := 1,
          chunks := [{ index := 0, stuck := false, pieces := [[{ hostTableOffset := 0, merkleRoot := 0 }]] }] }
        0 0 =
      [{ index := 0, stuck := false, pieces := [[{ hostTableOffset := 0, merkleRoot := 0 }]] }] ∧
    ({ index := 0, stuck := false, pieces := [[{ hostTableOffset := 0, merkleRoot := 0 }]] } : Chunk) ≠
      stub 0 := by
  constructor
  · rfl
  · decide

/-- Claim C5 (amended): for length > 0, SnapshotRange materializes (from
the chunk table) exactly the chunks whose byte range overlaps
[offset, offset+length) -- in particular the chunk at the upper boundary
is excluded when offset+length is an exact multiple of the chunk size --
and represents every other chunk as an index-only stub with no pieces.
For length = 0 the snapshot is NOT all stubs in general: the chunk
containing offset is materialized, except when offset is a positive
multiple of the chunk size, in which case every chunk is a stub. -/
theorem snapshot_range_covers (sf : SiaFile) (offset length : Nat)
    (hcs : 0 < sf.staticChunkSize) :
    (0 < length → ∀ i, i < sf.chunks.length →
      (SnapshotRange sf offset length)[i]? =
        some (if offset < (i + 1) * sf.staticChunkSize ∧
                i * sf.staticChunkSize < offset + length
          then sf.chunks.getD i (stub i) else stub i)) ∧
    (length = 0 → ∀ i, i < sf.chunks.length →
      (SnapshotRange sf offset length)[i]? =
        some (if i = offset / sf.staticChunkSize ∧
                (offset % sf.staticChunkSize ≠ 0 ∨ offset / sf.staticChunkSize = 0)
          then sf.chunks.getD i (stub i) else stub i)) := by
  constructor
  · intro hl i hi
    simp only [SnapshotRange]
    rw [readlockChunks_getElem sf _ _ i hi]
    have h1 : offset / sf.staticChunkSize ≤ i ↔ offset < (i + 1) * sf.staticChunkSize :=
      minChunk_le_iff sf.staticChunkSize offset i hcs
    have h2 :
        (i ≤ if 0 < (offset + length) / sf.staticChunkSize ∧
              (offset + length) % sf.staticChunkSize = 0
            then (offset + length) / sf.staticChunkSize - 1
            else (offset + length) / sf.staticChunkSize) ↔
          i * sf.staticChunkSize < offset + length :=
      le_maxChunk_iff sf.staticChunkSize (offset + length) i hcs (by omega)
    have hiff :
        (i < offset / sf.staticChunkSize ∨
            (if 0 < (offset + length) / sf.staticChunkSize ∧
                  (offset + length) % sf.staticChunkSize = 0
              then (offset + length) / sf.staticChunkSize - 1
              else (offset + length) / sf.staticChunkSize) < i) ↔
          ¬(offset < (i + 1) * sf.staticChunkSize ∧
              i * sf.staticChunkSize < offset + length) := by
      rw [not_and_or, ← h1, ← h2, lt_iff_not_le, lt_iff_not_le]
    rw [if_congr hiff rfl rfl, ite_not]
  · intro hl i hi
    subst hl
    simp only [SnapshotRange, Nat.add_zero]
    rw [readlockChunks_getElem sf _ _ i hi]
    have hiff :
        (i < offset / sf.staticChunkSize ∨
            (if 0 < offset / sf.staticChunkSize ∧ offset % sf.staticChunkSize = 0
              then offset / sf.staticChunkSize - 1
              else offset / sf.staticChunkSize) < i) ↔
          ¬(i = offset / sf.staticChunkSize ∧
              (offset % sf.staticChunkSize ≠ 0 ∨ offset / sf.staticChunkSize = 0)) := by
      generalize offset / sf.staticChunkSize = q
      generalize offset % sf.staticChunkSize = r
      by_cases hc : 0 < q ∧ r = 0
      · rw [if_pos hc]
        omega
      · rw [if_neg hc]
        omega
    rw [if_congr hiff rfl rfl, ite_not]

/-- Witness for snapshot_range_covers on the concrete file of scenario S6
scaled down: chunk size 2 (piece size 2, one data piece), five stored
chunks, offset 4, length 4: chunks 2 and 3 are materialized, chunks 0, 1
and 4 are stubs. -/
theorem snapshot_range_covers_witness :
    (SnapshotRange
        { staticPieceSize := 2, minPieces := 1,
          chunks := [stub 0, stub 1, stub 2, stub 3, stub 4] } 4 4)[0]? =
      some (if (4 : Nat) < (0 + 1) * 2 ∧ 0 * 2 < 4 + 4 then
        ([stub 0, stub 1, stub 2, stub 3, stub 4].getD 0 (stub 0)) else stub 0) :=
  ((snapshot_range_covers
      { staticPieceSize := 2, minPieces := 1,
        chunks := [stub 0, stub 1, stub 2, stub 3, stub 4] } 4 4 (by decide)).1
    (by decide) 0 (by decide))

/- ### WAL transactor (siadir package): CreateAndApplyTransaction -/

/-- The outcomes of the four fallible steps of CreateAndApplyTransaction:
creating the transaction, signalling setup complete, applying the updates
to the live data, and signalling the updates applied. -/
structure WalTxnEnv where
  newTransactionOk : Bool
  signalSetupCompleteOk : Bool
  applyUpdatesOk : Bool
  signalUpdatesAppliedOk : Bool
deriving DecidableEq, Repr

/-- How CreateAndApplyTransaction terminates: normally, by returning an
error to the caller, or by a panic. -/
inductive TxnResult where
  | ok
  | returnedError
  | panicked
deriving DecidableEq, Repr

/-- CreateAndApplyTransaction over the outcomes of its steps: a failure of
NewTransaction or of SignalSetupComplete is returned as an ordinary error;
from the moment setup complete has been signalled, a deferred handler
panics whenever the named error return is non-nil, so a failure of
ApplyUpdates or of SignalUpdatesApplied escalates to a panic instead of
reaching the caller. -/
def CreateAndApplyTransaction (e : WalTxnEnv) : TxnResult :=
  if !e.newTransactionOk then TxnResult.returnedError
  else if !e.signalSetupCompleteOk then TxnResult.returnedError
  else
    if !e.applyUpdatesOk then TxnResult.panicked
    else if !e.signalUpdatesAppliedOk then TxnResult.panicked
    else TxnResult.ok

/-- Claim C6: any error before setup complete is signalled is returned to
the caller as an ordinary error; once setup complete has been signalled, a
failure to apply the updates (or to signal them applied) escalates to a
panic, and the ordinary error return is unreachable. -/
theorem wal_commit_point (e : WalTxnEnv) :
    (e.newTransactionOk = false →
      CreateAndApplyTransaction e = TxnResult.returnedError) ∧
    (e.newTransactionOk = true → e.signalSetupCompleteOk = false →
      CreateAndApplyTransaction e = TxnResult.returnedError) ∧
    (e.newTransactionOk = true → e.signalSetupCompleteOk = true →
      e.applyUpdatesOk = false →
      CreateAndApplyTransaction e = TxnResult.panicked) ∧
    (e.newTransactionOk = true → e.signalSetupCompleteOk = true →
      e.applyUpdatesOk = true → e.signalUpdatesAppliedOk = false →
      CreateAndApplyTransaction e = TxnResult.panicked) ∧
    (e.newTransactionOk = true → e.signalSetupCompleteOk = true →
      CreateAndApplyTransaction e ≠ TxnResult.returnedError) := by
  obtain ⟨a, b, c, d⟩ := e
  cases a <;> cases b <;> cases c <;> cases d <;> decide

/-- Witness for wal_commit_point: applying the updates fails after setup
complete was signalled, and the run panics. -/
theorem wal_commit_point_witness :
    CreateAndApplyTransaction
        { newTransactionOk := true, signalSetupCompleteOk := true,
          applyUpdatesOk := false, signalUpdatesAppliedOk := true } = TxnResult.panicked :=
  (wal_commit_point
    { newTransactionOk := true, signalSetupCompleteOk := true,
      applyUpdatesOk := false, signalUpdatesAppliedOk := true }).2.2.1 rfl rfl rfl

/- ### Claim C10: the walk always completes and bubbles the parent -/

/-- A renter SiaPath as a list of path segments; the root is the empty
list. -/
structure SiaPath where
  segments : List String
deriving DecidableEq, Repr

/-- IsRoot: whether the path is the renter root. -/
def SiaPath.IsRoot (p : SiaPath) : Bool := p.segments.isEmpty

/-- Modelled from the spec: SiaPath.Dir lives in the modules package,
outside the provided sources. The spec says the walk continues with the
parent of every non-root directory, so Dir is total here and drops the
last path segment. -/
def SiaPath.Dir (p : SiaPath) : SiaPath := { segments := p.segments.dropLast }

/-- Modelled from the spec: RepairThreshold is defined outside the
provided sources; the root walk signals the repair loop when the new
aggregate health reaches it. Its concrete value is irrelevant to the
claims. -/
def RepairThreshold : ℚ := 1 / 4

/-- The externally visible actions of one bubble walk, in order. -/
inductive BubbleAct where
  | completeUpdate (p : SiaPath)
  | spawnParentBubble (p : SiaPath)
  | signalRepairNeeded
  | signalStuckChunkFound
deriving DecidableEq, Repr

/-- The outcomes of the fallible steps inside one walk and the metadata
the calculation produced when it succeeded. -/
structure PerformEnv where
  calcOk : Bool
  calcMetadata : Metadata
  openOk : Bool
  updateOk : Bool
deriving Repr

/-- The body of managedPerformBubbleMetadata (everything but the deferred
function): calculate the new metadata, returning the error on failure;
otherwise open the directory and write the metadata, recording but not
returning early on errors; then, at the root only, send the non-blocking
repairNeeded and stuckChunkFound signals according to the calculated
metadata. Returns the emitted actions and whether the error return is
non-nil. -/
def managedPerformBubbleBody (p : SiaPath) (env : PerformEnv) : List BubbleAct × Bool :=
  if !env.calcOk then ([], true)
  else
    let errored := !env.openOk || !env.updateOk
    let acts :=
      if p.IsRoot then
        (if RepairThreshold ≤ env.calcMetadata.aggregateHealth
          then [BubbleAct.signalRepairNeeded] else []) ++
        (if 0 < env.calcMetadata.aggregateNumStuckChunks
          then [BubbleAct.signalStuckChunkFound] else [])
      else []
    (acts, errored)

/-- managedPerformBubbleMetadata: the walk body wrapped by the deferred
function registered on entry, which runs on every return path: it
completes the bubble in the coordinator and, when the directory is not the
root, spawns an asynchronous bubble of the parent directory. -/
def managedPerformBubbleMetadata (p : SiaPath) (env : PerformEnv) : List BubbleAct × Bool :=
  let body := managedPerformBubbleBody p env
  (body.1 ++ [BubbleAct.completeUpdate p] ++
    (if p.IsRoot then [] else [BubbleAct.spawnParentBubble p.Dir]), body.2)

/-- Claim C10: every invocation of the bubble walk on a path p, in every
combination of step outcomes -- including a failing metadata calculation
or a failing metadata write -- completes the bubble in the coordinator
map (no active entry is leaked), and when p is not the root also spawns
an asynchronous bubble of the parent directory; a failing calculation
additionally makes the walk return an error. -/
theorem perform_bubble_always_completes (p : SiaPath) (env : PerformEnv) :
    BubbleAct.completeUpdate p ∈ (managedPerformBubbleMetadata p env).1 ∧
    (p.IsRoot = false →
      BubbleAct.spawnParentBubble p.Dir ∈ (managedPerformBubbleMetadata p env).1) ∧
    (env.calcOk = false → (managedPerformBubbleMetadata p env).2 = true) := by
  refine ⟨?_, ?_, ?_⟩
  · simp [managedPerformBubbleMetadata]
  · intro hr
    simp [managedPerformBubbleMetadata, hr]
  · intro hc
    simp [managedPerformBubbleMetadata, managedPerformBubbleBody, hc]

/-- Witness for perform_bubble_always_completes: a walk on the non-root
path a/b whose metadata calculation fails still spawns the parent
bubble. -/
theorem perform_bubble_always_completes_witness :
    BubbleAct.spawnParentBubble (SiaPath.Dir { segments := ["a", "b"] }) ∈
      (managedPerformBubbleMetadata { segments := ["a", "b"] }
        { calcOk := false, calcMetadata := mdZero, openOk := true, updateOk := true }).1 :=
  (perform_bubble_always_completes { segments := ["a", "b"] }
    { calcOk := false, calcMetadata := mdZero, openOk := true, updateOk := true }).2.1 rfl
